import Mathlib

/-!
Shallow embedding of the yago_bot homework-status notifier.

The repository contains three variants of the same program:
* variant A (first part of main.go): command bot (/start, /status) built on the
  telegram bot library, with no poll loop;
* variant B (second part of main.go): poll loop runBot plus a hand-rolled
  sendMessage that builds the Telegram request body by string interpolation;
* variant C (the unnamed source file): ticker-driven poll loop
  fetchAPIResponse with a global lastSentMessage marker, and a four-field
  Homework record with optional reviewer_comment and lesson_name.

Variants A and B share identical checkResponse / parseStatus / getAPIAnswer
code, embedded once in namespace MainGo together with the runBot tick and the
raw sendMessage body builder.  Variant C is embedded in namespace PartGo.

Decoded JSON values (the result of Go json.Decode into map[string]interface
values) are modelled by the inductive type Json; Go numbers always decode to
float64, modelled by the num constructor (the claims only involve integral
timestamps, so the numeric payload is an Int).  A Go type assertion that can
fail is modelled by an Option / pattern match; the unchecked assertion
response["current_date"].(float64) panics in Go when the key is absent or not
a number, which the tick models express by returning none.
-/

/-- Decoded JSON value as produced by Go json.Decode into an interface value. -/
inductive Json where
  | null : Json
  | bool (b : Bool) : Json
  | num (n : Int) : Json
  | str (s : String) : Json
  | arr (elems : List Json) : Json
  | obj (fields : List (String × Json)) : Json

/-- Lookup of a key in a decoded JSON object (Go map indexing, absent key
gives the nil interface value, modelled by none). -/
def lookupField : List (String × Json) → String → Option Json
  | [], _ => none
  | (k, v) :: rest, key => if k = key then some v else lookupField rest key

/-- Decoded top-level API response, a Go map from string keys to values. -/
abbrev RespObj := List (String × Json)

/-- Endpoint constant shared by all variants. -/
def Endpoint : String := "https://practicum.yandex.ru/api/user_api/homework_statuses/"

def ApprovedStatus : String := "approved"

def ReviewingStatus : String := "reviewing"

def RejectedStatus : String := "rejected"

/-- Sentinel status meaning that there are no new statuses. -/
def NoNewStatuses : String := "Нет новых статусов работ."

/-- HomeworkVerdict map built in init of every variant: the fixed table from
status to localized verdict text. -/
def HomeworkVerdict (s : String) : Option String :=
  if s = ApprovedStatus then some "Работа проверена: ревьюеру всё понравилось. Ура!"
  else if s = ReviewingStatus then some "Работа взята на проверку ревьюером."
  else if s = RejectedStatus then some "Работа проверена: у ревьюера есть замечания."
  else none

/-- Outgoing HTTP request, as far as the claims observe it: method, full URL
and headers. -/
structure Request where
  method : String
  url : String
  headers : List (String × String)
deriving DecidableEq

namespace MainGo

/-- Homework struct of main.go (both variants A and B): homework_name and
status only. -/
structure Homework where
  Name : String
  Status : String
deriving DecidableEq

/-- getAPIAnswer request construction (main.go): GET Endpoint?from_date=t
with an OAuth Authorization header.  The network round trip itself is not
modelled; only the issued request is. -/
def getAPIRequest (token : String) (currentTimestamp : Int) : Request :=
  { method := "GET"
    url := Endpoint ++ "?from_date=" ++ toString currentTimestamp
    headers := [("Authorization", "OAuth " ++ token)] }

/-- Request body built by the variant-B sendMessage via string interpolation
(fmt.Sprintf with the chat id and the message spliced into a JSON skeleton,
with no escaping). -/
def sendMessageBody (chatID message : String) : String :=
  "\x7b\"chat_id\": \"" ++ chatID ++ "\", \"text\": \"" ++ message ++ "\"\x7d"

/-- Element check of the checkResponse loop (main.go): the element must be an
object whose homework_name and status are strings; a missing key gives the
nil interface value and therefore also fails the string type assertion. -/
def checkHomework (v : Json) : Except String Homework :=
  match v with
  | Json.obj fields =>
    match lookupField fields "homework_name" with
    | some (Json.str name) =>
      match lookupField fields "status" with
      | some (Json.str status) => Except.ok { Name := name, Status := status }
      | _ => Except.error "Неверный формат ответа: поле \x27status\x27 не является строкой"
    | _ => Except.error "Неверный формат ответа: поле \x27homework_name\x27 не является строкой"
  | _ => Except.error "Неверный формат ответа: элемент \x27homework\x27 не является словарем"

/-- Loop body of checkResponse: the Go for loop aborts at the first bad
element and otherwise converts every element in order. -/
def checkHomeworkList : List Json → Except String (List Homework)
  | [] => Except.ok []
  | v :: vs =>
    match checkHomework v with
    | Except.error e => Except.error e
    | Except.ok hw =>
      match checkHomeworkList vs with
      | Except.error e => Except.error e
      | Except.ok hws => Except.ok (hw :: hws)

/-- checkResponse of main.go: response["homeworks"] must type-assert to a
list, then every element is converted.  The Go function returns (nil, err) on
failure, modelled by Except.error carrying no records. -/
def checkResponse (response : RespObj) : Except String (List Homework) :=
  match lookupField response "homeworks" with
  | some (Json.arr l) => checkHomeworkList l
  | _ => Except.error "Неверный формат ответа: поле \x27homeworks\x27 не является списком"

/-- parseStatus of main.go: statuses in the verdict table give the formatted
change message; the no-new-statuses sentinel is returned verbatim without an
error; anything else is an unknown-status error. -/
def parseStatus (homework : Homework) : Except String String :=
  match HomeworkVerdict homework.Status with
  | some verdict =>
    Except.ok ("Изменился статус проверки работы \"" ++
      (homework.Name ++ ("\": " ++ verdict)))
  | none =>
    if homework.Status = NoNewStatuses then Except.ok homework.Status
    else Except.error ("Неизвестный статус домашней работы: " ++ homework.Status)

/-- Result of one runBot loop iteration (variant B): the prevReport marker
and the currentTimestamp cursor after the iteration, plus the message handed
to sendMessage together with the outcome of that send attempt, if a send was
attempted at all.  Logging is not modelled for this tick. -/
structure RunBotStep where
  prev : Homework
  cursor : Int
  sent : Option (String × Bool)
deriving DecidableEq

/-- Iteration body of runBot (main.go, variant B).  Inputs: whether a send
attempt would succeed, the outcome of getAPIAnswer (Except.error models a
transport/HTTP/decode failure), and the loop state (currentTimestamp cursor,
prevReport).  The unchecked type assertion on response["current_date"]
panics when the key is absent or not a number, modelled by none.  Note that
prevReport is assigned whenever the statuses differ, regardless of the
outcome of parseStatus and of the send attempt. -/
def runBotTick (sendOk : Bool) (fetch : Except String RespObj)
    (st : Int × Homework) : Option RunBotStep :=
  match fetch with
  | Except.error _ => some { prev := st.2, cursor := st.1, sent := none }
  | Except.ok response =>
    match lookupField response "current_date" with
    | some (Json.num t) =>
      match checkResponse response with
      | Except.error _ => some { prev := st.2, cursor := t, sent := none }
      | Except.ok newHomeworks =>
        let currentReport : Homework :=
          match newHomeworks with
          | [] => { Name := "", Status := NoNewStatuses }
          | hw :: _ => hw
        if currentReport.Status = st.2.Status then
          some { prev := st.2, cursor := t, sent := none }
        else
          match parseStatus currentReport with
          | Except.error _ => some { prev := currentReport, cursor := t, sent := none }
          | Except.ok message =>
            some { prev := currentReport, cursor := t, sent := some (message, sendOk) }
    | _ => none

/-- Body of the /status command handler goroutine (variant A): the reply text
sent back to the chat, or none when the unchecked current_date assertion
panics.  The handler replies with a generic failure text on any error, with
the parsed message on success, and with the sentinel text when the homework
list is empty; the fetch-error reply happens before the assertion. -/
def statusTick (fetch : Except String RespObj) : Option String :=
  match fetch with
  | Except.error _ => some "Не удалось получить статус домашних работ."
  | Except.ok response =>
    match lookupField response "current_date" with
    | some (Json.num _) =>
      match checkResponse response with
      | Except.error _ => some "Не удалось получить статус домашних работ."
      | Except.ok newHomeworks =>
        match newHomeworks with
        | [] => some "Нет новых статусов работ."
        | hw :: _ =>
          match parseStatus hw with
          | Except.error _ => some "Не удалось получить статус домашних работ."
          | Except.ok message => some message
    | _ => none

end MainGo

namespace PartGo

/-- Homework struct of the unnamed source file (variant C): homework_name,
status, and the optional reviewer_comment and lesson_name. -/
structure Homework where
  Name : String
  Status : String
  ReviewerComment : String
  LessonName : String
deriving DecidableEq

/-- getAPIAnswer request construction of variant C: the from_date parameter
is currentTimestamp minus 3600 seconds, except that a zero currentTimestamp
is replaced by the current wall-clock time (passed in as now). -/
def getAPIRequest (token : String) (now currentTimestamp : Int) : Request :=
  let timestamp := if currentTimestamp = 0 then now else currentTimestamp - 3600
  { method := "GET"
    url := Endpoint ++ "?from_date=" ++ toString timestamp
    headers := [("Authorization", "OAuth " ++ token)] }

/-- Optional string field extraction with the comma-ok assertion pattern
(hwMap[key].(string) with the error ignored): a missing or non-string value
defaults to the empty string. -/
def optStringField (fields : List (String × Json)) (key : String) : String :=
  match lookupField fields key with
  | some (Json.str s) => s
  | _ => ""

/-- Element check of variant C checkResponse: homework_name and status are
required strings; reviewer_comment and lesson_name default to the empty
string when absent or mistyped. -/
def checkHomework (v : Json) : Except String Homework :=
  match v with
  | Json.obj fields =>
    match lookupField fields "homework_name" with
    | some (Json.str name) =>
      match lookupField fields "status" with
      | some (Json.str status) =>
        Except.ok { Name := name, Status := status,
                    ReviewerComment := optStringField fields "reviewer_comment",
                    LessonName := optStringField fields "lesson_name" }
      | _ => Except.error "неверный формат ответа: поле \x27status\x27 не является строкой"
    | _ => Except.error "неверный формат ответа: поле \x27homework_name\x27 не является строкой"
  | _ => Except.error "неверный формат ответа: элемент \x27homework\x27 не является словарем"

/-- Loop body of variant C checkResponse. -/
def checkHomeworkList : List Json → Except String (List Homework)
  | [] => Except.ok []
  | v :: vs =>
    match checkHomework v with
    | Except.error e => Except.error e
    | Except.ok hw =>
      match checkHomeworkList vs with
      | Except.error e => Except.error e
      | Except.ok hws => Except.ok (hw :: hws)

/-- checkResponse of variant C. -/
def checkResponse (response : RespObj) : Except String (List Homework) :=
  match lookupField response "homeworks" with
  | some (Json.arr l) => checkHomeworkList l
  | _ => Except.error "неверный формат ответа: поле \x27homeworks\x27 не является списком"

/-- parseStatus of variant C: a switch whose cases are exactly the three
known statuses; everything else, the no-new-statuses sentinel included,
falls to the default branch and is an unknown-status error.  The message
interpolates name, lesson name, verdict and reviewer comment. -/
def parseStatus (homework : Homework) : Except String String :=
  if homework.Status = ApprovedStatus ∨ homework.Status = ReviewingStatus ∨
      homework.Status = RejectedStatus then
    let verdict := (HomeworkVerdict homework.Status).getD ""
    Except.ok ("Изменился статус проверки работы \"" ++
      (homework.Name ++ ("\" для урока \"" ++
        (homework.LessonName ++ ("\": " ++
          (verdict ++ ("\nКомментарий ревьюера: " ++ homework.ReviewerComment)))))))
  else
    Except.error ("Неизвестный статус домашней работы: " ++ homework.Status)

/-- Result of one fetchAPIResponse call (variant C): the lastSentMessage
marker after the call, the message handed to sendMessage together with the
outcome of that attempt (if a send was attempted), whether the function
returned without error, and the log lines emitted by the function itself
(lines emitted inside getAPIAnswer are attributed to the fetch input and not
modelled; the provider-supplied detail of the chat-id conversion and send
failure log lines is elided). -/
structure FetchStep where
  last : String
  sent : Option (String × Bool)
  ok : Bool
  logs : List String
deriving DecidableEq

/-- Body of fetchAPIResponse (variant C).  Inputs: the result of parsing
TelegramChatID as an int64 (none models a strconv failure), whether a send
attempt would succeed, the outcome of getAPIAnswer, and the current
lastSentMessage.  The unchecked current_date type assertion panics when the
key is absent or not a number, modelled by none.  The marker is assigned
only in the branch where the send attempt succeeded; a failed send leaves it
unchanged, and the function still returns without error after a failed
send. -/
def fetchAPIResponseTick (chatID : Option Int) (sendOk : Bool)
    (fetch : Except String RespObj) (lastSentMessage : String) :
    Option FetchStep :=
  match fetch with
  | Except.error e =>
    some { last := lastSentMessage, sent := none, ok := false,
           logs := ["Не удалось получить ответ от API: " ++ e] }
  | Except.ok response =>
    match lookupField response "current_date" with
    | some (Json.num _) =>
      match checkResponse response with
      | Except.error e =>
        some { last := lastSentMessage, sent := none, ok := false,
               logs := ["Неверный ответ от API: " ++ e] }
      | Except.ok newHomeworks =>
        match newHomeworks with
        | [] =>
          some { last := lastSentMessage, sent := none, ok := true,
                 logs := ["Результат запроса к API: Нет новых статусов работ."] }
        | hw :: _ =>
          match parseStatus hw with
          | Except.error e =>
            some { last := lastSentMessage, sent := none, ok := false,
                   logs := ["Ошибка при разборе статуса домашней работы: " ++ e] }
          | Except.ok message =>
            if message = lastSentMessage then
              some { last := lastSentMessage, sent := none, ok := true, logs := [] }
            else
              match chatID with
              | none =>
                some { last := lastSentMessage, sent := none, ok := false,
                       logs := ["Ошибка при преобразовании TelegramChatID в int64: "] }
              | some _ =>
                if sendOk then
                  some { last := message, sent := some (message, true), ok := true,
                         logs := ["Сообщение отправлено в Telegram: " ++ message] }
                else
                  some { last := lastSentMessage, sent := some (message, false), ok := true,
                         logs := ["Ошибка при отправке сообщения в Telegram: "] }
    | _ => none

/-- Body of the /status command handler goroutine of variant C, identical to
the variant A handler except that it uses the variant C checkResponse and
parseStatus. -/
def statusTick (fetch : Except String RespObj) : Option String :=
  match fetch with
  | Except.error _ => some "Не удалось получить статус домашних работ."
  | Except.ok response =>
    match lookupField response "current_date" with
    | some (Json.num _) =>
      match checkResponse response with
      | Except.error _ => some "Не удалось получить статус домашних работ."
      | Except.ok newHomeworks =>
        match newHomeworks with
        | [] => some "Нет новых статусов работ."
        | hw :: _ =>
          match parseStatus hw with
          | Except.error _ => some "Не удалось получить статус домашних работ."
          | Except.ok message => some message
    | _ => none

end PartGo

/-!
A reference JSON parser, used only to state what it means for the request
body built by the variant-B sendMessage to be (or not be) valid JSON with
the intended fields.  It implements RFC 8259 JSON restricted to the needs of
those statements: objects, arrays, strings with the single-character escape
sequences (the \u escape is not supported), integer numbers without fraction
or exponent, true, false and null; unescaped control characters below 0x20
are rejected inside strings.  The statements it appears in only involve
objects whose values are strings, where this subset agrees with full JSON.
-/

def quoteChar : Char := Char.ofNat 34

def backslashChar : Char := Char.ofNat 92

def lbraceChar : Char := Char.ofNat 123

def rbraceChar : Char := Char.ofNat 125

def lbrackChar : Char := Char.ofNat 91

def rbrackChar : Char := Char.ofNat 93

def isWsChar (c : Char) : Bool :=
  c = Char.ofNat 32 || c = Char.ofNat 9 || c = Char.ofNat 10 || c = Char.ofNat 13

def skipWs : List Char → List Char
  | [] => []
  | c :: cs => if isWsChar c then skipWs cs else c :: cs

/-- Single-character escape sequences of JSON strings. -/
def escChar (e : Char) : Option Char :=
  if e = quoteChar then some quoteChar
  else if e = backslashChar then some backslashChar
  else if e = '/' then some '/'
  else if e = 'b' then some (Char.ofNat 8)
  else if e = 'f' then some (Char.ofNat 12)
  else if e = 'n' then some (Char.ofNat 10)
  else if e = 'r' then some (Char.ofNat 13)
  else if e = 't' then some (Char.ofNat 9)
  else none

mutual

/-- String-literal body parser: the input starts right after the opening
quote; returns the decoded characters and the rest after the closing
quote. -/
def parseStringBody : List Char → Option (List Char × List Char)
  | [] => none
  | c :: cs =>
    if c = quoteChar then some ([], cs)
    else if c = backslashChar then parseEscTail cs
    else if c.toNat < 32 then none
    else
      match parseStringBody cs with
      | some (s, r) => some (c :: s, r)
      | none => none

/-- Continuation of the string-literal body parser right after a
backslash. -/
def parseEscTail : List Char → Option (List Char × List Char)
  | [] => none
  | e :: cs2 =>
    match escChar e with
    | some d =>
      match parseStringBody cs2 with
      | some (s, r) => some (d :: s, r)
      | none => none
    | none => none

end

def takeDigits : List Char → List Char × List Char
  | [] => ([], [])
  | c :: cs =>
    if c.isDigit then
      let p := takeDigits cs
      (c :: p.1, p.2)
    else ([], c :: cs)

def digitsToNat (ds : List Char) : Nat :=
  ds.foldl (fun a c => a * 10 + (c.toNat - 48)) 0

mutual

/-- JSON value parser with fuel (the fuel bounds the container nesting
depth plus the number of container entries). -/
def parseValue : Nat → List Char → Option (Json × List Char)
  | 0, _ => none
  | Nat.succ n, cs =>
    match skipWs cs with
    | [] => none
    | c :: rest =>
      if c = quoteChar then
        match parseStringBody rest with
        | some (s, r) => some (Json.str (String.mk s), r)
        | none => none
      else if c = lbraceChar then
        match skipWs rest with
        | [] => none
        | c2 :: r2 =>
          if c2 = rbraceChar then some (Json.obj [], r2)
          else
            match parseMemberList n (c2 :: r2) with
            | some (ms, r) => some (Json.obj ms, r)
            | none => none
      else if c = lbrackChar then
        match skipWs rest with
        | [] => none
        | c2 :: r2 =>
          if c2 = rbrackChar then some (Json.arr [], r2)
          else
            match parseElemList n (c2 :: r2) with
            | some (vs, r) => some (Json.arr vs, r)
            | none => none
      else if c = 't' then
        match rest with
        | 'r' :: 'u' :: 'e' :: r => some (Json.bool true, r)
        | _ => none
      else if c = 'f' then
        match rest with
        | 'a' :: 'l' :: 's' :: 'e' :: r => some (Json.bool false, r)
        | _ => none
      else if c = 'n' then
        match rest with
        | 'u' :: 'l' :: 'l' :: r => some (Json.null, r)
        | _ => none
      else if c = '-' then
        match takeDigits rest with
        | ([], _) => none
        | (ds, r) => some (Json.num (-(digitsToNat ds : Int)), r)
      else if c.isDigit then
        match takeDigits (c :: rest) with
        | ([], _) => none
        | (ds, r) => some (Json.num (digitsToNat ds : Int), r)
      else none

/-- Nonempty member list of a JSON object, up to and including the closing
brace. -/
def parseMemberList : Nat → List Char → Option (List (String × Json) × List Char)
  | 0, _ => none
  | Nat.succ n, cs =>
    match skipWs cs with
    | [] => none
    | c :: rest =>
      if c = quoteChar then
        match parseStringBody rest with
        | some (k, r1) =>
          match skipWs r1 with
          | [] => none
          | c2 :: r2 =>
            if c2 = ':' then
              match parseValue n r2 with
              | some (v, r3) =>
                match skipWs r3 with
                | [] => none
                | c3 :: r4 =>
                  if c3 = ',' then
                    match parseMemberList n r4 with
                    | some (ms, r5) => some ((String.mk k, v) :: ms, r5)
                    | none => none
                  else if c3 = rbraceChar then some ([(String.mk k, v)], r4)
                  else none
              | none => none
            else none
        | none => none
      else none

/-- Nonempty element list of a JSON array, up to and including the closing
bracket. -/
def parseElemList : Nat → List Char → Option (List Json × List Char)
  | 0, _ => none
  | Nat.succ n, cs =>
    match parseValue n cs with
    | some (v, r1) =>
      match skipWs r1 with
      | [] => none
      | c2 :: r2 =>
        if c2 = ',' then
          match parseElemList n r2 with
          | some (vs, r3) => some (v :: vs, r3)
          | none => none
        else if c2 = rbrackChar then some ([v], r2)
        else none
    | none => none

end

/-- Whole-input JSON parse: a value followed only by whitespace. -/
def parseJson (s : String) : Option Json :=
  match parseValue (s.length + 1) s.data with
  | some (v, rest) =>
    match skipWs rest with
    | [] => some v
    | _ => none
  | none => none

/-- Characters that pass through the interpolation into a JSON string
literal unchanged: not a double quote, not a backslash, not a control
character. -/
def cleanChar (c : Char) : Bool :=
  !(c = quoteChar) && !(c = backslashChar) && decide (32 ≤ c.toNat)

/-- Strings whose every character is clean. -/
def cleanString (s : String) : Bool :=
  s.data.all cleanChar

/-- Character list of the fixed part of the interpolated body before the
chat id. -/
def bodyPre : List Char :=
  [lbraceChar, quoteChar, 'c', 'h', 'a', 't', '_', 'i', 'd', quoteChar, ':', ' ', quoteChar]

/-- Character list of the fixed part of the interpolated body between the
chat id and the message. -/
def bodyMid : List Char :=
  [quoteChar, ',', ' ', quoteChar, 't', 'e', 'x', 't', quoteChar, ':', ' ', quoteChar]

/-- Character list of the fixed part of the interpolated body after the
message. -/
def bodyPost : List Char :=
  [quoteChar, rbraceChar]

/-!
Concrete payloads and messages used by the end-to-end claims, and helper
observers used to state the validator claims.
-/

/-- Name field of a decoded homework element, when it is an object with a
string homework_name. -/
def nameField (v : Json) : Option String :=
  match v with
  | Json.obj fields =>
    match lookupField fields "homework_name" with
    | some (Json.str s) => some s
    | _ => none
  | _ => none

/-- Status field of a decoded homework element, when it is an object with a
string status. -/
def statusField (v : Json) : Option String :=
  match v with
  | Json.obj fields =>
    match lookupField fields "status" with
    | some (Json.str s) => some s
    | _ => none
  | _ => none

/-- Decoded homework element that passes the required-field checks of both
validators. -/
def goodElem (v : Json) : Bool :=
  (nameField v).isSome && (statusField v).isSome

/-- Fields of a decoded JSON object, empty for non-objects. -/
def objFields (v : Json) : List (String × Json) :=
  match v with
  | Json.obj fields => fields
  | _ => []

/-- Record the main.go validator builds from a good element. -/
def MainGo.recordOf (v : Json) : MainGo.Homework :=
  { Name := (nameField v).getD "", Status := (statusField v).getD "" }

/-- Record the variant C validator builds from a good element. -/
def PartGo.recordOf (v : Json) : PartGo.Homework :=
  { Name := (nameField v).getD "", Status := (statusField v).getD "",
    ReviewerComment := PartGo.optStringField (objFields v) "reviewer_comment",
    LessonName := PartGo.optStringField (objFields v) "lesson_name" }

/-- First offending required field of a decoded homework element for the
main.go validator, with the corresponding error message, or none for a good
element.  The checks run in source order: object shape, then homework_name,
then status. -/
def MainGo.elemErr (v : Json) : Option String :=
  match v with
  | Json.obj fields =>
    match lookupField fields "homework_name" with
    | some (Json.str _) =>
      match lookupField fields "status" with
      | some (Json.str _) => none
      | _ => some "Неверный формат ответа: поле \x27status\x27 не является строкой"
    | _ => some "Неверный формат ответа: поле \x27homework_name\x27 не является строкой"
  | _ => some "Неверный формат ответа: элемент \x27homework\x27 не является словарем"

/-- First offending required field for the variant C validator. -/
def PartGo.elemErr (v : Json) : Option String :=
  match v with
  | Json.obj fields =>
    match lookupField fields "homework_name" with
    | some (Json.str _) =>
      match lookupField fields "status" with
      | some (Json.str _) => none
      | _ => some "неверный формат ответа: поле \x27status\x27 не является строкой"
    | _ => some "неверный формат ответа: поле \x27homework_name\x27 не является строкой"
  | _ => some "неверный формат ответа: элемент \x27homework\x27 не является словарем"

/-- Decoded payload with a well-formed homework list but no current_date
key. -/
def payloadNoDate : RespObj :=
  [("homeworks", Json.arr [Json.obj
      [("homework_name", Json.str "hw1"), ("status", Json.str "approved")]])]

/-- Decoded payload with one approved homework hw1 and current_date 1000. -/
def payloadHw1 : RespObj :=
  [("homeworks", Json.arr [Json.obj
      [("homework_name", Json.str "hw1"), ("status", Json.str "approved")]]),
   ("current_date", Json.num 1000)]

/-- Decoded payload with an empty homework list and current_date 2000. -/
def payloadEmptyHw : RespObj :=
  [("homeworks", Json.arr []), ("current_date", Json.num 2000)]

/-- Message the main.go translator derives from payloadHw1. -/
def msgHw1 : String :=
  "Изменился статус проверки работы \"hw1\": Работа проверена: ревьюеру всё понравилось. Ура!"

/-- Message the variant C translator derives from payloadHw1 (its format also
interpolates the empty lesson name and reviewer comment). -/
def msgHw1C : String :=
  "Изменился статус проверки работы \"hw1\" для урока \"\": Работа проверена: ревьюеру всё понравилось. Ура!\nКомментарий ревьюера: "

/-- Containment of one string in another, stated on the underlying character
lists. -/
def strContains (s t : String) : Prop :=
  ∃ u v : List Char, s.data = u ++ (t.data ++ v)

/-- Statuses outside the three-element enumeration are not in the verdict
table. -/
theorem homeworkVerdict_none (s : String) (h1 : s ≠ ApprovedStatus)
    (h2 : s ≠ ReviewingStatus) (h3 : s ≠ RejectedStatus) :
    HomeworkVerdict s = none := by
  unfold HomeworkVerdict
  rw [if_neg h1, if_neg h2, if_neg h3]

example : parseJson "\x7b\"a\": \"b\", \"c\": \"d\"\x7d" =
    some (Json.obj [("a", Json.str "b"), ("c", Json.str "d")]) := rfl

example : parseJson (MainGo.sendMessageBody "123" "hello") =
    some (Json.obj [("chat_id", Json.str "123"), ("text", Json.str "hello")]) := rfl

example : parseJson (MainGo.sendMessageBody "123" "a\"b") = none := rfl

/-- C3 counterexample: the variant C translator does not return the sentinel
verbatim; the sentinel falls into its default branch and produces an
unknown-status error. -/
theorem c3_sentinel_counterexample :
    PartGo.parseStatus
        { Name := "hw1", Status := "Нет новых статусов работ.",
          ReviewerComment := "", LessonName := "" } =
      Except.error "Неизвестный статус домашней работы: Нет новых статусов работ." := rfl

/-- C3 (amended): the main.go translator returns the sentinel verbatim
without an error and errors on every other status outside the enumeration,
while the variant C translator errors on every status outside the
enumeration, the sentinel included. -/
theorem c3_sentinel_handling :
    (∀ hw : MainGo.Homework, hw.Status = NoNewStatuses →
      MainGo.parseStatus hw = Except.ok NoNewStatuses) ∧
    (∀ hw : MainGo.Homework, hw.Status ≠ ApprovedStatus → hw.Status ≠ ReviewingStatus →
      hw.Status ≠ RejectedStatus → hw.Status ≠ NoNewStatuses →
      MainGo.parseStatus hw =
        Except.error ("Неизвестный статус домашней работы: " ++ hw.Status)) ∧
    (∀ hw : PartGo.Homework, hw.Status ≠ ApprovedStatus → hw.Status ≠ ReviewingStatus →
      hw.Status ≠ RejectedStatus →
      PartGo.parseStatus hw =
        Except.error ("Неизвестный статус домашней работы: " ++ hw.Status)) := by
  refine ⟨?_, ?_, ?_⟩
  · intro hw h
    obtain ⟨nm, st⟩ := hw
    simp only at h
    subst h
    rfl
  · intro hw h1 h2 h3 h4
    simp only [MainGo.parseStatus, homeworkVerdict_none hw.Status h1 h2 h3, if_neg h4]
  · intro hw h1 h2 h3
    have hcond : ¬(hw.Status = ApprovedStatus ∨ hw.Status = ReviewingStatus ∨
        hw.Status = RejectedStatus) := by
      rintro (h | h | h) <;> contradiction
    simp only [PartGo.parseStatus, if_neg hcond]

/-- C3 witness: the sentinel-status record through the main.go translator,
and a bogus status through both translators. -/
theorem c3_sentinel_handling_witness :
    MainGo.parseStatus { Name := "hw1", Status := NoNewStatuses } =
        Except.ok NoNewStatuses ∧
    MainGo.parseStatus { Name := "hw1", Status := "bogus" } =
        Except.error ("Неизвестный статус домашней работы: " ++ "bogus") ∧
    PartGo.parseStatus
        { Name := "hw1", Status := "bogus", ReviewerComment := "", LessonName := "" } =
      Except.error ("Неизвестный статус домашней работы: " ++ "bogus") :=
  ⟨c3_sentinel_handling.1 { Name := "hw1", Status := NoNewStatuses } rfl,
   c3_sentinel_handling.2.1 { Name := "hw1", Status := "bogus" }
     (by decide) (by decide) (by decide) (by decide),
   c3_sentinel_handling.2.2
     { Name := "hw1", Status := "bogus", ReviewerComment := "", LessonName := "" }
     (by decide) (by decide) (by decide)⟩

/-- Containment facts for the main.go message format. -/
theorem mainMsg_contains (nm v : String) :
    strContains ("Изменился статус проверки работы \"" ++ (nm ++ ("\": " ++ v))) nm ∧
    strContains ("Изменился статус проверки работы \"" ++ (nm ++ ("\": " ++ v))) v := by
  constructor
  · exact ⟨("Изменился статус проверки работы \"" : String).data,
      ("\": " ++ v : String).data, by simp [strContains, String.data_append]⟩
  · exact ⟨("Изменился статус проверки работы \"" : String).data ++ nm.data ++
      ("\": " : String).data, [], by simp [strContains, String.data_append]⟩

/-- Containment facts for the variant C message format. -/
theorem partMsg_contains (nm ls v cm : String) :
    strContains ("Изменился статус проверки работы \"" ++
      (nm ++ ("\" для урока \"" ++ (ls ++ ("\": " ++
        (v ++ ("\nКомментарий ревьюера: " ++ cm))))))) nm ∧
    strContains ("Изменился статус проверки работы \"" ++
      (nm ++ ("\" для урока \"" ++ (ls ++ ("\": " ++
        (v ++ ("\nКомментарий ревьюера: " ++ cm))))))) v := by
  constructor
  · exact ⟨("Изменился статус проверки работы \"" : String).data,
      ("\" для урока \"" ++ (ls ++ ("\": " ++
        (v ++ ("\nКомментарий ревьюера: " ++ cm)))) : String).data,
      by simp [strContains, String.data_append]⟩
  · exact ⟨("Изменился статус проверки работы \"" : String).data ++ nm.data ++
      ("\" для урока \"" : String).data ++ ls.data ++ ("\": " : String).data,
      ("\nКомментарий ревьюера: " : String).data ++ cm.data,
      by simp [strContains, String.data_append]⟩

/-- C5: on the three enumerated statuses both translators succeed with a
message containing the record name and the exact verdict from the fixed
table; on any other status distinct from the sentinel both translators
fail. -/
theorem c5_translator_table :
    (∀ hw : MainGo.Homework,
      hw.Status = ApprovedStatus ∨ hw.Status = ReviewingStatus ∨
        hw.Status = RejectedStatus →
      ∃ verdict message, HomeworkVerdict hw.Status = some verdict ∧
        MainGo.parseStatus hw = Except.ok message ∧
        strContains message hw.Name ∧ strContains message verdict) ∧
    (∀ hw : PartGo.Homework,
      hw.Status = ApprovedStatus ∨ hw.Status = ReviewingStatus ∨
        hw.Status = RejectedStatus →
      ∃ verdict message, HomeworkVerdict hw.Status = some verdict ∧
        PartGo.parseStatus hw = Except.ok message ∧
        strContains message hw.Name ∧ strContains message verdict) ∧
    (∀ hw : MainGo.Homework,
      ¬(hw.Status = ApprovedStatus ∨ hw.Status = ReviewingStatus ∨
        hw.Status = RejectedStatus) →
      hw.Status ≠ NoNewStatuses → ∃ e, MainGo.parseStatus hw = Except.error e) ∧
    (∀ hw : PartGo.Homework,
      ¬(hw.Status = ApprovedStatus ∨ hw.Status = ReviewingStatus ∨
        hw.Status = RejectedStatus) →
      hw.Status ≠ NoNewStatuses → ∃ e, PartGo.parseStatus hw = Except.error e) := by
  refine ⟨?_, ?_, ?_, ?_⟩
  · intro hw h
    obtain ⟨nm, st⟩ := hw
    simp only at h
    rcases h with h | h | h <;> subst h <;>
      exact ⟨_, _, rfl, rfl, (mainMsg_contains nm _).1, (mainMsg_contains nm _).2⟩
  · intro hw h
    obtain ⟨nm, st, cm, ls⟩ := hw
    simp only at h
    rcases h with h | h | h <;> subst h <;>
      exact ⟨_, _, rfl, rfl, (partMsg_contains nm ls _ cm).1, (partMsg_contains nm ls _ cm).2⟩
  · intro hw h hs
    have h1 : hw.Status ≠ ApprovedStatus := fun e => h (Or.inl e)
    have h2 : hw.Status ≠ ReviewingStatus := fun e => h (Or.inr (Or.inl e))
    have h3 : hw.Status ≠ RejectedStatus := fun e => h (Or.inr (Or.inr e))
    exact ⟨"Неизвестный статус домашней работы: " ++ hw.Status, by
      simp only [MainGo.parseStatus, homeworkVerdict_none hw.Status h1 h2 h3, if_neg hs]⟩
  · intro hw h hs
    exact ⟨"Неизвестный статус домашней работы: " ++ hw.Status, by
      simp only [PartGo.parseStatus, if_neg h]⟩

/-- C5 witness: an approved record through both translators and a bogus
status through both. -/
theorem c5_translator_table_witness :
    (∃ verdict message, HomeworkVerdict "approved" = some verdict ∧
      MainGo.parseStatus ⟨"hw1", "approved"⟩ = Except.ok message ∧
      strContains message "hw1" ∧ strContains message verdict) ∧
    (∃ verdict message, HomeworkVerdict "approved" = some verdict ∧
      PartGo.parseStatus ⟨"hw1", "approved", "с", "урок"⟩ = Except.ok message ∧
      strContains message "hw1" ∧ strContains message verdict) ∧
    (∃ e, MainGo.parseStatus ⟨"hw1", "bogus"⟩ = Except.error e) ∧
    (∃ e, PartGo.parseStatus ⟨"hw1", "bogus", "", ""⟩ = Except.error e) :=
  ⟨c5_translator_table.1 ⟨"hw1", "approved"⟩ (Or.inl rfl),
   c5_translator_table.2.1 ⟨"hw1", "approved", "с", "урок"⟩ (Or.inl rfl),
   c5_translator_table.2.2.1 ⟨"hw1", "bogus"⟩ (by decide) (by decide),
   c5_translator_table.2.2.2 ⟨"hw1", "bogus", "", ""⟩ (by decide) (by decide)⟩

/-- C8 counterexample: the variant C fetcher does not put the given
timestamp into from_date; for the timestamp 5000 the issued request carries
from_date=1400 (the timestamp minus 3600). -/
theorem c8_from_date_counterexample :
    (PartGo.getAPIRequest "token" 999 5000).url =
      Endpoint ++ "?from_date=" ++ toString (1400 : Int) ∧
    (PartGo.getAPIRequest "token" 999 5000).url ≠
      Endpoint ++ "?from_date=" ++ toString (5000 : Int) := by
  exact ⟨rfl, by decide⟩

/-- C8 (amended): the main.go fetcher issues a GET to the fixed endpoint
with from_date equal to the given timestamp and an OAuth Authorization
header; the variant C fetcher issues the same request but with from_date
equal to the timestamp minus 3600 seconds, and with the current time
substituted when the given timestamp is zero. -/
theorem c8_request_construction :
    (∀ token t, MainGo.getAPIRequest token t =
      { method := "GET", url := Endpoint ++ "?from_date=" ++ toString t,
        headers := [("Authorization", "OAuth " ++ token)] }) ∧
    (∀ token now t, t ≠ 0 → PartGo.getAPIRequest token now t =
      { method := "GET", url := Endpoint ++ "?from_date=" ++ toString (t - 3600),
        headers := [("Authorization", "OAuth " ++ token)] }) ∧
    (∀ token now, PartGo.getAPIRequest token now 0 =
      { method := "GET", url := Endpoint ++ "?from_date=" ++ toString now,
        headers := [("Authorization", "OAuth " ++ token)] }) := by
  refine ⟨fun token t => rfl, ?_, fun token now => rfl⟩
  intro token now t h
  simp only [PartGo.getAPIRequest, if_neg h]

/-- C8 witness: the amended request shapes at the timestamp 5000. -/
theorem c8_request_construction_witness :
    MainGo.getAPIRequest "tok" 5000 =
      { method := "GET", url := Endpoint ++ "?from_date=" ++ toString (5000 : Int),
        headers := [("Authorization", "OAuth " ++ "tok")] } ∧
    PartGo.getAPIRequest "tok" 7 5000 =
      { method := "GET", url := Endpoint ++ "?from_date=" ++ toString ((5000 : Int) - 3600),
        headers := [("Authorization", "OAuth " ++ "tok")] } :=
  ⟨c8_request_construction.1 "tok" 5000,
   c8_request_construction.2.1 "tok" 7 5000 (by decide)⟩

/-- C2 counterexample: on the hw1/approved payload with an empty last-sent
marker the variant C loop does send once, but the message it sends is its
four-field format, not the message the claim states. -/
theorem c2_counterexample :
    PartGo.fetchAPIResponseTick (some 1) true (Except.ok payloadHw1) "" =
      some { last := msgHw1C, sent := some (msgHw1C, true), ok := true,
             logs := ["Сообщение отправлено в Telegram: " ++ msgHw1C] } ∧
    msgHw1C ≠ msgHw1 := by
  exact ⟨rfl, by decide⟩

/-- C2 (amended): on the decoded payload with one approved homework hw1 and
current_date 1000, starting from an empty last-seen state, the runBot loop
sends exactly the stated message once and a second identical tick sends
nothing; the variant C loop also sends exactly once and nothing on the
second identical tick, but its message additionally interpolates the (empty)
lesson name and reviewer comment. -/
theorem c2_end_to_end :
    (∀ t0 : Int,
      MainGo.runBotTick true (Except.ok payloadHw1) (t0, ⟨"", ""⟩) =
        some { prev := ⟨"hw1", "approved"⟩, cursor := 1000, sent := some (msgHw1, true) } ∧
      MainGo.runBotTick true (Except.ok payloadHw1) (1000, ⟨"hw1", "approved"⟩) =
        some { prev := ⟨"hw1", "approved"⟩, cursor := 1000, sent := none }) ∧
    (∀ cid : Int,
      PartGo.fetchAPIResponseTick (some cid) true (Except.ok payloadHw1) "" =
        some { last := msgHw1C, sent := some (msgHw1C, true), ok := true,
               logs := ["Сообщение отправлено в Telegram: " ++ msgHw1C] } ∧
      PartGo.fetchAPIResponseTick (some cid) true (Except.ok payloadHw1) msgHw1C =
        some { last := msgHw1C, sent := none, ok := true, logs := [] }) :=
  ⟨fun _ => ⟨rfl, rfl⟩, fun _ => ⟨rfl, rfl⟩⟩

/-- C4 counterexample: on the empty-homeworks payload the runBot loop,
started from the initial empty previous report, does send a notification:
the sentinel text itself is handed to sendMessage. -/
theorem c4_counterexample :
    MainGo.runBotTick true (Except.ok payloadEmptyHw) (0, ⟨"", ""⟩) =
      some { prev := ⟨"", NoNewStatuses⟩, cursor := 2000,
             sent := some (NoNewStatuses, true) } := rfl

/-- C4 (amended): on the empty-homeworks payload with current_date 2000 the
variant C poll tick sends nothing and only logs the no-new-statuses line,
whatever the marker and send outcome; the runBot tick sends nothing only
when the previous status is already the sentinel, and otherwise sends the
sentinel text itself as a notification. -/
theorem c4_empty_homeworks :
    (∀ chatID sendOk last,
      PartGo.fetchAPIResponseTick chatID sendOk (Except.ok payloadEmptyHw) last =
        some { last := last, sent := none, ok := true,
               logs := ["Результат запроса к API: Нет новых статусов работ."] }) ∧
    (∀ (t0 : Int) (sendOk : Bool) (prev : MainGo.Homework), prev.Status = NoNewStatuses →
      MainGo.runBotTick sendOk (Except.ok payloadEmptyHw) (t0, prev) =
        some { prev := prev, cursor := 2000, sent := none }) ∧
    (∀ (t0 : Int) (sendOk : Bool) (prev : MainGo.Homework), prev.Status ≠ NoNewStatuses →
      MainGo.runBotTick sendOk (Except.ok payloadEmptyHw) (t0, prev) =
        some { prev := ⟨"", NoNewStatuses⟩, cursor := 2000,
               sent := some (NoNewStatuses, sendOk) }) := by
  refine ⟨fun chatID sendOk last => rfl, ?_, ?_⟩
  · intro t0 sendOk prev h
    obtain ⟨nm, st⟩ := prev
    simp only at h
    subst h
    rfl
  · intro t0 sendOk prev h
    obtain ⟨nm, st⟩ := prev
    simp only at h
    simp only [NoNewStatuses] at h
    have hne : ¬(("Нет новых статусов работ." : String) = st) := fun e => h e.symm
    simp [MainGo.runBotTick, payloadEmptyHw, MainGo.checkResponse, MainGo.checkHomeworkList,
      lookupField, MainGo.parseStatus, HomeworkVerdict, NoNewStatuses, ApprovedStatus,
      ReviewingStatus, RejectedStatus, hne]

/-- C4 witness: the amended runBot behaviors at the sentinel and the initial
empty previous report. -/
theorem c4_empty_homeworks_witness :
    PartGo.fetchAPIResponseTick (some 1) true (Except.ok payloadEmptyHw) "" =
      some { last := "", sent := none, ok := true,
             logs := ["Результат запроса к API: Нет новых статусов работ."] } ∧
    MainGo.runBotTick true (Except.ok payloadEmptyHw) (0, ⟨"", NoNewStatuses⟩) =
      some { prev := ⟨"", NoNewStatuses⟩, cursor := 2000, sent := none } ∧
    MainGo.runBotTick true (Except.ok payloadEmptyHw) (0, ⟨"", ""⟩) =
      some { prev := ⟨"", NoNewStatuses⟩, cursor := 2000,
             sent := some (NoNewStatuses, true) } :=
  ⟨c4_empty_homeworks.1 (some 1) true "",
   c4_empty_homeworks.2.1 0 true ⟨"", NoNewStatuses⟩ rfl,
   c4_empty_homeworks.2.2 0 true ⟨"", ""⟩ (by decide)⟩

/-- C1 counterexample: in the runBot loop a failed send does not leave the
marker unchanged; on the hw1/approved payload with a failing send attempt
the previous report is still advanced to the new report. -/
theorem c1_counterexample :
    MainGo.runBotTick false (Except.ok payloadHw1) (0, ⟨"", ""⟩) =
      some { prev := ⟨"hw1", "approved"⟩, cursor := 1000,
             sent := some (msgHw1, false) } ∧
    (⟨"hw1", "approved"⟩ : MainGo.Homework) ≠ ⟨"", ""⟩ := by
  exact ⟨rfl, by decide⟩

/-- C1 (amended): in the variant C tick the notifier is invoked only when
the derived message differs from the last sent one, the marker advances to
the new message exactly when the send attempt succeeded, and it stays
unchanged whenever nothing was sent; in the runBot tick a send is attempted
only when the new status differs from the previous one, but the prevReport
marker advances to the new report whenever the statuses differ, regardless
of the outcome of the send attempt and also on a translation error. -/
theorem c1_marker_update :
    (∀ chatID sendOk fetch last r,
      PartGo.fetchAPIResponseTick chatID sendOk fetch last = some r →
      (∀ m ok2, r.sent = some (m, ok2) →
        m ≠ last ∧ ok2 = sendOk ∧ r.last = (if sendOk then m else last)) ∧
      (r.sent = none → r.last = last)) ∧
    (∀ sendOk fetch st r,
      MainGo.runBotTick sendOk fetch st = some r →
      (∀ m ok2, r.sent = some (m, ok2) →
        ok2 = sendOk ∧ r.prev.Status ≠ st.2.Status ∧
        MainGo.parseStatus r.prev = Except.ok m) ∧
      (r.sent = none → r.prev = st.2 ∨
        (r.prev.Status ≠ st.2.Status ∧
          ∃ e, MainGo.parseStatus r.prev = Except.error e))) := by
  constructor
  · intro chatID sendOk fetch last r h
    cases fetch with
    | error e =>
      simp only [PartGo.fetchAPIResponseTick] at h
      obtain rfl := Option.some.inj h
      exact ⟨fun m ok2 hs => by simp at hs, fun _ => rfl⟩
    | ok resp =>
      simp only [PartGo.fetchAPIResponseTick] at h
      split at h
      · split at h
        · obtain rfl := Option.some.inj h
          exact ⟨fun m ok2 hs => by simp at hs, fun _ => rfl⟩
        · split at h
          · obtain rfl := Option.some.inj h
            exact ⟨fun m ok2 hs => by simp at hs, fun _ => rfl⟩
          · split at h
            · obtain rfl := Option.some.inj h
              exact ⟨fun m ok2 hs => by simp at hs, fun _ => rfl⟩
            · split at h
              · obtain rfl := Option.some.inj h
                exact ⟨fun m ok2 hs => by simp at hs, fun _ => rfl⟩
              · rename_i hneq
                split at h
                · obtain rfl := Option.some.inj h
                  exact ⟨fun m ok2 hs => by simp at hs, fun _ => rfl⟩
                · split at h
                  · rename_i hsend
                    obtain rfl := Option.some.inj h
                    refine ⟨fun m ok2 hs => ?_, fun hs => by simp at hs⟩
                    simp only [Option.some.injEq, Prod.mk.injEq] at hs
                    obtain ⟨rfl, rfl⟩ := hs
                    exact ⟨hneq, hsend.symm, by simp [hsend]⟩
                  · rename_i hsend
                    obtain rfl := Option.some.inj h
                    refine ⟨fun m ok2 hs => ?_, fun hs => by simp at hs⟩
                    simp only [Option.some.injEq, Prod.mk.injEq] at hs
                    obtain ⟨rfl, rfl⟩ := hs
                    have hso : sendOk = false := by
                      cases sendOk
                      · rfl
                      · exact absurd rfl hsend
                    exact ⟨hneq, hso.symm, by simp [hso]⟩
      · simp at h
  · intro sendOk fetch st r h
    cases fetch with
    | error e =>
      simp only [MainGo.runBotTick] at h
      obtain rfl := Option.some.inj h
      exact ⟨fun m ok2 hs => by simp at hs, fun _ => Or.inl rfl⟩
    | ok resp =>
      simp only [MainGo.runBotTick] at h
      split at h
      · split at h
        · obtain rfl := Option.some.inj h
          exact ⟨fun m ok2 hs => by simp at hs, fun _ => Or.inl rfl⟩
        · split at h
          · obtain rfl := Option.some.inj h
            exact ⟨fun m ok2 hs => by simp at hs, fun _ => Or.inl rfl⟩
          · rename_i hneq
            split at h
            · rename_i e hparse
              obtain rfl := Option.some.inj h
              exact ⟨fun m ok2 hs => by simp at hs,
                fun _ => Or.inr ⟨hneq, e, hparse⟩⟩
            · rename_i message hparse
              obtain rfl := Option.some.inj h
              refine ⟨fun m ok2 hs => ?_, fun hs => by simp at hs⟩
              simp only [Option.some.injEq, Prod.mk.injEq] at hs
              obtain ⟨rfl, rfl⟩ := hs
              exact ⟨rfl, hneq, hparse⟩
      · simp at h

/-- C1 witness: the variant C tick invariants at a concrete successful send
and at an unchanged message. -/
theorem c1_marker_update_witness :
    ((∀ m ok2, some (msgHw1C, true) = some (m, ok2) →
        m ≠ "" ∧ ok2 = true ∧ msgHw1C = (if true then m else "")) ∧
      (some (msgHw1C, true) = (none : Option (String × Bool)) → msgHw1C = "")) ∧
    ((∀ m ok2, (none : Option (String × Bool)) = some (m, ok2) →
        ok2 = true ∧ ("approved" : String) ≠ "approved" ∧
        MainGo.parseStatus ⟨"hw1", "approved"⟩ = Except.ok m) ∧
      ((none : Option (String × Bool)) = none →
        (⟨"hw1", "approved"⟩ : MainGo.Homework) = ⟨"hw1", "approved"⟩ ∨
        (("approved" : String) ≠ "approved" ∧
          ∃ e, MainGo.parseStatus ⟨"hw1", "approved"⟩ = Except.error e))) := by
  constructor
  · have := c1_marker_update.1 (some 1) true (Except.ok payloadHw1) ""
      { last := msgHw1C, sent := some (msgHw1C, true), ok := true,
        logs := ["Сообщение отправлено в Telegram: " ++ msgHw1C] } rfl
    exact this
  · have := c1_marker_update.2 true (Except.ok payloadHw1) (1000, ⟨"hw1", "approved"⟩)
      { prev := ⟨"hw1", "approved"⟩, cursor := 1000, sent := none } rfl
    exact this

/-- Elements passing both required-field checks are converted to their
record by the main.go element check. -/
theorem MainGo.checkHomework_good (v : Json) (h : goodElem v = true) :
    MainGo.checkHomework v = Except.ok (MainGo.recordOf v) := by
  cases v with
  | obj fields =>
    simp only [goodElem, nameField, statusField, Bool.and_eq_true] at h
    obtain ⟨h1, h2⟩ := h
    rcases hn : lookupField fields "homework_name" with _ | jn <;> rw [hn] at h1
    · simp at h1
    · rcases jn with _ | b | nu | s | li | fs <;> simp at h1
      rcases hs : lookupField fields "status" with _ | js <;> rw [hs] at h2
      · simp at h2
      · rcases js with _ | b | nu | s2 | li | fs <;> simp at h2
        simp [MainGo.checkHomework, MainGo.recordOf, nameField, statusField, hn, hs]
  | null => simp [goodElem, nameField] at h
  | bool b => simp [goodElem, nameField] at h
  | num n => simp [goodElem, nameField] at h
  | str s => simp [goodElem, nameField] at h
  | arr l => simp [goodElem, nameField] at h

/-- Lists of good elements are converted elementwise by the main.go
validator loop. -/
theorem MainGo.checkHomeworkList_good (l : List Json) (h : ∀ v ∈ l, goodElem v = true) :
    MainGo.checkHomeworkList l = Except.ok (l.map MainGo.recordOf) := by
  induction l with
  | nil => rfl
  | cons v vs ih =>
    have hv := h v (List.mem_cons_self v vs)
    have hvs := ih fun u hu => h u (List.mem_cons_of_mem v hu)
    simp [MainGo.checkHomeworkList, MainGo.checkHomework_good v hv, hvs]

/-- Elements passing both required-field checks are converted to their
record by the variant C element check. -/
theorem PartGo.checkHomeworkC_good (v : Json) (h : goodElem v = true) :
    PartGo.checkHomework v = Except.ok (PartGo.recordOf v) := by
  cases v with
  | obj fields =>
    simp only [goodElem, nameField, statusField, Bool.and_eq_true] at h
    obtain ⟨h1, h2⟩ := h
    rcases hn : lookupField fields "homework_name" with _ | jn <;> rw [hn] at h1
    · simp at h1
    · rcases jn with _ | b | nu | s | li | fs <;> simp at h1
      rcases hs : lookupField fields "status" with _ | js <;> rw [hs] at h2
      · simp at h2
      · rcases js with _ | b | nu | s2 | li | fs <;> simp at h2
        simp [PartGo.checkHomework, PartGo.recordOf, nameField, statusField,
          objFields, hn, hs]
  | null => simp [goodElem, nameField] at h
  | bool b => simp [goodElem, nameField] at h
  | num n => simp [goodElem, nameField] at h
  | str s => simp [goodElem, nameField] at h
  | arr l => simp [goodElem, nameField] at h

/-- Lists of good elements are converted elementwise by the variant C
validator loop. -/
theorem PartGo.checkHomeworkListC_good (l : List Json) (h : ∀ v ∈ l, goodElem v = true) :
    PartGo.checkHomeworkList l = Except.ok (l.map PartGo.recordOf) := by
  induction l with
  | nil => rfl
  | cons v vs ih =>
    have hv := h v (List.mem_cons_self v vs)
    have hvs := ih fun u hu => h u (List.mem_cons_of_mem v hu)
    simp [PartGo.checkHomeworkList, PartGo.checkHomeworkC_good v hv, hvs]

/-- Elements with an offending required field produce exactly the message of
the first offending field in the main.go element check. -/
theorem MainGo.checkHomework_err (v : Json) (e : String) (h : MainGo.elemErr v = some e) :
    MainGo.checkHomework v = Except.error e := by
  cases v with
  | obj fields =>
    simp only [MainGo.elemErr] at h
    simp only [MainGo.checkHomework]
    rcases hn : lookupField fields "homework_name" with _ | jn <;> rw [hn] at h
    · obtain rfl := Option.some.inj h
      rfl
    · rcases jn with _ | b | nu | s | li | fs <;>
        first
          | (obtain rfl := Option.some.inj h; rfl)
          | skip
      rcases hs : lookupField fields "status" with _ | js <;> rw [hs] at h
      · obtain rfl := Option.some.inj h
        rfl
      · rcases js with _ | b | nu | s2 | li | fs <;>
          first
            | (obtain rfl := Option.some.inj h; rfl)
            | simp at h
  | null => exact Option.some.inj h ▸ rfl
  | bool b => exact Option.some.inj h ▸ rfl
  | num n => exact Option.some.inj h ▸ rfl
  | str s => exact Option.some.inj h ▸ rfl
  | arr l => exact Option.some.inj h ▸ rfl

/-- Elements with an offending required field produce exactly the message of
the first offending field in the variant C element check. -/
theorem PartGo.checkHomeworkC_err (v : Json) (e : String) (h : PartGo.elemErr v = some e) :
    PartGo.checkHomework v = Except.error e := by
  cases v with
  | obj fields =>
    simp only [PartGo.elemErr] at h
    simp only [PartGo.checkHomework]
    rcases hn : lookupField fields "homework_name" with _ | jn <;> rw [hn] at h
    · obtain rfl := Option.some.inj h
      rfl
    · rcases jn with _ | b | nu | s | li | fs <;>
        first
          | (obtain rfl := Option.some.inj h; rfl)
          | skip
      rcases hs : lookupField fields "status" with _ | js <;> rw [hs] at h
      · obtain rfl := Option.some.inj h
        rfl
      · rcases js with _ | b | nu | s2 | li | fs <;>
          first
            | (obtain rfl := Option.some.inj h; rfl)
            | simp at h
  | null => exact Option.some.inj h ▸ rfl
  | bool b => exact Option.some.inj h ▸ rfl
  | num n => exact Option.some.inj h ▸ rfl
  | str s => exact Option.some.inj h ▸ rfl
  | arr l => exact Option.some.inj h ▸ rfl

/-- First-offender behaviour of the main.go validator loop: good elements up
to the first offender are consumed and the offender aborts the loop with its
message. -/
theorem MainGo.checkHomeworkList_err (pre post : List Json) (v : Json) (e : String)
    (hpre : ∀ u ∈ pre, goodElem u = true) (hv : MainGo.elemErr v = some e) :
    MainGo.checkHomeworkList (pre ++ v :: post) = Except.error e := by
  induction pre with
  | nil =>
    simp [MainGo.checkHomeworkList, MainGo.checkHomework_err v e hv]
  | cons u us ih =>
    have hu := hpre u (List.mem_cons_self u us)
    have hrest := ih fun w hw => hpre w (List.mem_cons_of_mem u hw)
    simp [MainGo.checkHomeworkList, MainGo.checkHomework_good u hu, hrest]

/-- First-offender behaviour of the variant C validator loop. -/
theorem PartGo.checkHomeworkListC_err (pre post : List Json) (v : Json) (e : String)
    (hpre : ∀ u ∈ pre, goodElem u = true) (hv : PartGo.elemErr v = some e) :
    PartGo.checkHomeworkList (pre ++ v :: post) = Except.error e := by
  induction pre with
  | nil =>
    simp [PartGo.checkHomeworkList, PartGo.checkHomeworkC_err v e hv]
  | cons u us ih =>
    have hu := hpre u (List.mem_cons_self u us)
    have hrest := ih fun w hw => hpre w (List.mem_cons_of_mem u hw)
    simp [PartGo.checkHomeworkList, PartGo.checkHomeworkC_good u hu, hrest]

/-- C6: whenever the homeworks entry is a list all of whose elements are
objects with string homework_name and status, both validators succeed with
one record per element, in order, whose required fields equal the source
fields (and, for variant C, whose optional fields carry the comma-ok
defaults). -/
theorem c6_validator_maps :
    (∀ (resp : RespObj) (l : List Json),
      lookupField resp "homeworks" = some (Json.arr l) →
      (∀ v ∈ l, goodElem v = true) →
      MainGo.checkResponse resp = Except.ok (l.map MainGo.recordOf) ∧
      (l.map MainGo.recordOf).length = l.length ∧
      ∀ (i : ℕ) (h1 : i < (l.map MainGo.recordOf).length) (h2 : i < l.length),
        some ((l.map MainGo.recordOf).get ⟨i, h1⟩).Name = nameField (l.get ⟨i, h2⟩) ∧
        some ((l.map MainGo.recordOf).get ⟨i, h1⟩).Status = statusField (l.get ⟨i, h2⟩)) ∧
    (∀ (resp : RespObj) (l : List Json),
      lookupField resp "homeworks" = some (Json.arr l) →
      (∀ v ∈ l, goodElem v = true) →
      PartGo.checkResponse resp = Except.ok (l.map PartGo.recordOf) ∧
      (l.map PartGo.recordOf).length = l.length ∧
      ∀ (i : ℕ) (h1 : i < (l.map PartGo.recordOf).length) (h2 : i < l.length),
        some ((l.map PartGo.recordOf).get ⟨i, h1⟩).Name = nameField (l.get ⟨i, h2⟩) ∧
        some ((l.map PartGo.recordOf).get ⟨i, h1⟩).Status = statusField (l.get ⟨i, h2⟩) ∧
        ((l.map PartGo.recordOf).get ⟨i, h1⟩).ReviewerComment =
          PartGo.optStringField (objFields (l.get ⟨i, h2⟩)) "reviewer_comment" ∧
        ((l.map PartGo.recordOf).get ⟨i, h1⟩).LessonName =
          PartGo.optStringField (objFields (l.get ⟨i, h2⟩)) "lesson_name") := by
  constructor
  · intro resp l hl hg
    refine ⟨?_, by simp, ?_⟩
    · simp only [MainGo.checkResponse, hl]
      exact MainGo.checkHomeworkList_good l hg
    · intro i h1 h2
      have hget : (l.map MainGo.recordOf).get ⟨i, h1⟩ = MainGo.recordOf (l.get ⟨i, h2⟩) := by
        simp [List.get_eq_getElem, List.getElem_map]
      rw [hget]
      have hgood := hg (l.get ⟨i, h2⟩) (List.get_mem l i h2)
      simp only [goodElem, Bool.and_eq_true] at hgood
      obtain ⟨hn, hs⟩ := hgood
      obtain ⟨a, ha⟩ := Option.isSome_iff_exists.mp hn
      obtain ⟨b, hb⟩ := Option.isSome_iff_exists.mp hs
      simp only [MainGo.recordOf]
      rw [ha, hb]
      exact ⟨rfl, rfl⟩
  · intro resp l hl hg
    refine ⟨?_, by simp, ?_⟩
    · simp only [PartGo.checkResponse, hl]
      exact PartGo.checkHomeworkListC_good l hg
    · intro i h1 h2
      have hget : (l.map PartGo.recordOf).get ⟨i, h1⟩ = PartGo.recordOf (l.get ⟨i, h2⟩) := by
        simp [List.get_eq_getElem, List.getElem_map]
      rw [hget]
      have hgood := hg (l.get ⟨i, h2⟩) (List.get_mem l i h2)
      simp only [goodElem, Bool.and_eq_true] at hgood
      obtain ⟨hn, hs⟩ := hgood
      obtain ⟨a, ha⟩ := Option.isSome_iff_exists.mp hn
      obtain ⟨b, hb⟩ := Option.isSome_iff_exists.mp hs
      simp only [PartGo.recordOf]
      rw [ha, hb]
      simp

/-- C6 witness: both validators on the one-element hw1/approved payload. -/
theorem c6_validator_maps_witness :
    MainGo.checkResponse payloadHw1 =
      Except.ok [{ Name := "hw1", Status := "approved" }] ∧
    PartGo.checkResponse payloadHw1 =
      Except.ok [{ Name := "hw1", Status := "approved",
                   ReviewerComment := "", LessonName := "" }] :=
  ⟨(c6_validator_maps.1 payloadHw1
      [Json.obj [("homework_name", Json.str "hw1"), ("status", Json.str "approved")]]
      rfl (by decide)).1,
   (c6_validator_maps.2 payloadHw1
      [Json.obj [("homework_name", Json.str "hw1"), ("status", Json.str "approved")]]
      rfl (by decide)).1⟩

/-- C7: when homeworks is absent or not a list both validators fail with the
list-shape message, and when the list contains a first offending element
(after a prefix of good ones) they fail with exactly the message of the
first offending field of that element; the Except.error result carries no
records, matching the nil slice returned by the Go code. -/
theorem c7_validator_rejects :
    (∀ resp : RespObj, (∀ l, lookupField resp "homeworks" ≠ some (Json.arr l)) →
      MainGo.checkResponse resp =
        Except.error "Неверный формат ответа: поле \x27homeworks\x27 не является списком" ∧
      PartGo.checkResponse resp =
        Except.error "неверный формат ответа: поле \x27homeworks\x27 не является списком") ∧
    (∀ (resp : RespObj) (l pre post : List Json) (v : Json) (e : String),
      lookupField resp "homeworks" = some (Json.arr l) →
      l = pre ++ v :: post →
      (∀ u ∈ pre, goodElem u = true) →
      MainGo.elemErr v = some e →
      MainGo.checkResponse resp = Except.error e) ∧
    (∀ (resp : RespObj) (l pre post : List Json) (v : Json) (e : String),
      lookupField resp "homeworks" = some (Json.arr l) →
      l = pre ++ v :: post →
      (∀ u ∈ pre, goodElem u = true) →
      PartGo.elemErr v = some e →
      PartGo.checkResponse resp = Except.error e) := by
  refine ⟨?_, ?_, ?_⟩
  · intro resp h
    rcases ho : lookupField resp "homeworks" with _ | j
    · constructor <;> simp [MainGo.checkResponse, PartGo.checkResponse, ho]
    · rcases j with _ | b | n | s | li | fs <;>
        first
          | exact absurd ho (h _)
          | constructor <;> simp [MainGo.checkResponse, PartGo.checkResponse, ho]
  · intro resp l pre post v e hl hsplit hpre hv
    subst hsplit
    simp only [MainGo.checkResponse, hl]
    exact MainGo.checkHomeworkList_err pre post v e hpre hv
  · intro resp l pre post v e hl hsplit hpre hv
    subst hsplit
    simp only [PartGo.checkResponse, hl]
    exact PartGo.checkHomeworkListC_err pre post v e hpre hv

/-- C7 witness: a payload whose homeworks is a string, and a payload whose
first homework element is a number. -/
theorem c7_validator_rejects_witness :
    MainGo.checkResponse [("homeworks", Json.str "x")] =
      Except.error "Неверный формат ответа: поле \x27homeworks\x27 не является списком" ∧
    MainGo.checkResponse [("homeworks", Json.arr [Json.num 5])] =
      Except.error "Неверный формат ответа: элемент \x27homework\x27 не является словарем" ∧
    PartGo.checkResponse [("homeworks", Json.arr [Json.num 5])] =
      Except.error "неверный формат ответа: элемент \x27homework\x27 не является словарем" :=
  ⟨(c7_validator_rejects.1 [("homeworks", Json.str "x")]
      (fun l h => by simp [lookupField] at h)).1,
   c7_validator_rejects.2.1 [("homeworks", Json.arr [Json.num 5])]
     [Json.num 5] [] [] (Json.num 5) _ rfl rfl (fun u hu => absurd hu (by simp)) rfl,
   c7_validator_rejects.2.2 [("homeworks", Json.arr [Json.num 5])]
     [Json.num 5] [] [] (Json.num 5) _ rfl rfl (fun u hu => absurd hu (by simp)) rfl⟩

/-- C9: with a fetched response in hand, every tick and the /status handler
run to completion exactly when current_date holds a number; when the key is
absent or not a number, the unchecked type assertion is a runtime fault
(modelled by none) rather than a logged, skipped tick, even on responses the
validator would accept. -/
theorem c9_current_date_assertion :
    (∀ resp : RespObj,
      (∀ t : Int, lookupField resp "current_date" ≠ some (Json.num t)) →
      (∀ (sendOk : Bool) (st : Int × MainGo.Homework),
        MainGo.runBotTick sendOk (Except.ok resp) st = none) ∧
      (∀ (chatID : Option Int) (sendOk : Bool) (last : String),
        PartGo.fetchAPIResponseTick chatID sendOk (Except.ok resp) last = none) ∧
      MainGo.statusTick (Except.ok resp) = none ∧
      PartGo.statusTick (Except.ok resp) = none) ∧
    (∀ (resp : RespObj) (t : Int),
      lookupField resp "current_date" = some (Json.num t) →
      (∀ (sendOk : Bool) (st : Int × MainGo.Homework),
        (MainGo.runBotTick sendOk (Except.ok resp) st).isSome = true) ∧
      (∀ (chatID : Option Int) (sendOk : Bool) (last : String),
        (PartGo.fetchAPIResponseTick chatID sendOk (Except.ok resp) last).isSome = true) ∧
      (MainGo.statusTick (Except.ok resp)).isSome = true ∧
      (PartGo.statusTick (Except.ok resp)).isSome = true) := by
  constructor
  · intro resp h
    refine ⟨fun sendOk st => ?_, fun chatID sendOk last => ?_, ?_, ?_⟩ <;>
      · rcases ho : lookupField resp "current_date" with _ | j
        · simp [MainGo.runBotTick, PartGo.fetchAPIResponseTick, MainGo.statusTick,
            PartGo.statusTick, ho]
        · rcases j with _ | b | n | s | li | fs <;>
            first
              | exact absurd ho (h _)
              | simp [MainGo.runBotTick, PartGo.fetchAPIResponseTick, MainGo.statusTick,
                  PartGo.statusTick, ho]
  · intro resp t h
    refine ⟨fun sendOk st => ?_, fun chatID sendOk last => ?_, ?_, ?_⟩
    · simp only [MainGo.runBotTick, h]
      repeat' split
      all_goals simp
    · simp only [PartGo.fetchAPIResponseTick, h]
      repeat' split
      all_goals simp
    · simp only [MainGo.statusTick, h]
      repeat' split
      all_goals simp
    · simp only [PartGo.statusTick, h]
      repeat' split
      all_goals simp

/-- C9 witness: a response with a valid homework list but no current_date is
accepted by the validator yet faults every tick, while the full hw1 payload
completes. -/
theorem c9_current_date_assertion_witness :
    MainGo.checkResponse payloadNoDate =
      Except.ok [{ Name := "hw1", Status := "approved" }] ∧
    MainGo.runBotTick true (Except.ok payloadNoDate) (0, ⟨"", ""⟩) = none ∧
    PartGo.fetchAPIResponseTick (some 1) true (Except.ok payloadNoDate) "" = none ∧
    MainGo.statusTick (Except.ok payloadNoDate) = none ∧
    PartGo.statusTick (Except.ok payloadNoDate) = none ∧
    (MainGo.runBotTick true (Except.ok payloadHw1) (0, ⟨"", ""⟩)).isSome = true := by
  have hnone := c9_current_date_assertion.1 payloadNoDate
    (by intro t ht; simp [payloadNoDate, lookupField] at ht)
  have hsome := c9_current_date_assertion.2 payloadHw1 1000 rfl
  exact ⟨rfl, hnone.1 true (0, ⟨"", ""⟩), hnone.2.1 (some 1) true "",
    hnone.2.2.1, hnone.2.2.2, hsome.1 true (0, ⟨"", ""⟩)⟩

/-- Clean characters pass through a JSON string literal unchanged: the
string-body parser consumes them up to the next quote. -/
theorem parseStringBody_clean (cs : List Char) (h : cs.all cleanChar = true)
    (rest : List Char) :
    parseStringBody (cs ++ quoteChar :: rest) = some (cs, rest) := by
  induction cs with
  | nil => rfl
  | cons c cs ih =>
    simp only [List.all_cons, Bool.and_eq_true] at h
    obtain ⟨h1, h2⟩ := h
    simp only [cleanChar, Bool.and_eq_true, Bool.not_eq_true', decide_eq_true_eq,
      decide_eq_false_iff_not] at h1
    obtain ⟨⟨hq, hb⟩, hct⟩ := h1
    have hlt : ¬(c.toNat < 32) := by omega
    simp only [List.cons_append, parseStringBody, if_neg hq, if_neg hb, if_neg hlt,
      List.append_eq, ih h2]

/-- Character-level shape of the interpolated request body. -/
theorem sendMessageBody_data (c m : String) :
    (MainGo.sendMessageBody c m).data =
      bodyPre ++ (c.data ++ (bodyMid ++ (m.data ++ bodyPost))) := by
  simp +decide [MainGo.sendMessageBody, String.data_append, bodyPre, bodyMid,
    bodyPost, List.cons.injEq]

/-- With clean chat id and message characters the interpolated body parses
as the two-field object, at any sufficient fuel. -/
theorem parseValue_sendBody (n : Nat) (cd md : List Char)
    (hc : cd.all cleanChar = true) (hm : md.all cleanChar = true) :
    parseValue (Nat.succ (Nat.succ (Nat.succ (Nat.succ n))))
        (bodyPre ++ (cd ++ (bodyMid ++ (md ++ bodyPost)))) =
      some (Json.obj [("chat_id", Json.str (String.mk cd)),
                      ("text", Json.str (String.mk md))], []) := by
  simp only [bodyPre, bodyMid, bodyPost, List.cons_append, List.nil_append]
  simp +decide [parseValue, parseMemberList, parseStringBody, skipWs, isWsChar,
    escChar, parseStringBody_clean, hc, hm]

/-- C10: the interpolated sendMessage body is valid JSON carrying exactly
the given chat id and message whenever both are free of double quotes,
backslashes and control characters, and for a message containing a double
quote the body is not valid JSON at all. -/
theorem c10_sendMessageBody :
    (∀ c m : String, cleanString c = true → cleanString m = true →
      parseJson (MainGo.sendMessageBody c m) =
        some (Json.obj [("chat_id", Json.str c), ("text", Json.str m)])) ∧
    parseJson (MainGo.sendMessageBody "123" "a\"b") = none := by
  refine ⟨?_, rfl⟩
  intro c m hc hm
  have hdata := sendMessageBody_data c m
  have hfuel : (MainGo.sendMessageBody c m).length + 1 =
      Nat.succ (Nat.succ (Nat.succ (Nat.succ (c.data.length + m.data.length + 24)))) := by
    have hl : (MainGo.sendMessageBody c m).length =
        ((MainGo.sendMessageBody c m).data).length := rfl
    rw [hl, hdata]
    simp [bodyPre, bodyMid, bodyPost]
    omega
  have h4 := parseValue_sendBody (c.data.length + m.data.length + 24) c.data m.data hc hm
  unfold parseJson
  rw [hfuel, hdata, h4]
  rfl

/-- C10 witness: a clean chat id and message parse back as the intended
object. -/
theorem c10_sendMessageBody_witness :
    cleanString "123" = true ∧ cleanString "hello" = true ∧
    parseJson (MainGo.sendMessageBody "123" "hello") =
      some (Json.obj [("chat_id", Json.str "123"), ("text", Json.str "hello")]) :=
  ⟨by decide, by decide, c10_sendMessageBody.1 "123" "hello" (by decide) (by decide)⟩
